import Mathlib

set_option autoImplicit false

/-! Verification of the templated package-build descriptor (setup.py).

The whole program is:

  requirements = [l.strip() for l in open('requirements.txt').readlines()]
  setup(name=..., url=..., version=..., author=..., author_email=...,
        description=..., packages=find_packages(),
        install_requires=requirements, include_package_data=True)

We embed file text as a list of characters, the filesystem as a partial map
from paths to text, and the run of the script as a pure function returning an
event trace together with either the descriptor handed to setup or the
propagated I/O failure. -/

/-- Whitespace test used by Python str.strip, restricted to the ASCII
whitespace characters (space, tab, newline, carriage return, vertical tab,
form feed) that can occur in a dependency manifest. -/
def pyWS (c : Char) : Bool :=
  c == ' ' || c == '\t' || c == '\n' || c == '\r' || c == '\x0b' || c == '\x0c'

/-- Embedding of Python file.readlines on the decoded text of a file: split
the character stream into lines, each line keeping its trailing newline; a
final fragment with no newline is a line of its own, and the empty stream has
no lines. -/
def readlines : List Char → List (List Char)
  | [] => []
  | c :: cs =>
    let rest := readlines cs
    if c = '\n' then ['\n'] :: rest
    else
      match rest with
      | [] => [[c]]
      | l :: ls => (c :: l) :: ls

/-- Removal of trailing whitespace, the right half of Python str.strip. -/
def dropTrailWS (l : List Char) : List Char :=
  (l.reverse.dropWhile pyWS).reverse

/-- Embedding of Python str.strip: remove leading and trailing whitespace,
leaving the interior of the string untouched. -/
def pyStrip (l : List Char) : List Char :=
  dropTrailWS (l.dropWhile pyWS)

/-- Embedding of line 3 of setup.py as a function of the manifest text:
requirements = [l.strip() for l in open('requirements.txt').readlines()]. -/
def requirements (content : List Char) : List (List Char) :=
  (readlines content).map pyStrip

/-- Removal of the single line terminator a readlines entry may carry. -/
def stripEOL (l : List Char) : List Char :=
  if l.getLast? = some '\n' then l.dropLast else l

/-- The lines of a file as usually understood: the readlines decomposition of
its text with the terminator of each line removed. -/
def fileLines (content : List Char) : List (List Char) :=
  (readlines content).map stripEOL

/-- The fixed relative path of the dependency manifest read by setup.py. -/
def requirementsPath : String := "requirements.txt"

/-- A filesystem assigns to each path either the decoded text of a readable
file there, or none when the file is missing or unreadable. -/
abbrev FS := String → Option (List Char)

/-- Modelled from the spec: setuptools' find_packages is external-toolchain
code absent from this repository; the spec describes it as a directory walk
beneath the project root that enumerates the sub-package paths whose
directories carry package markers. A project tree is modelled as that walk:
the list of walked sub-directory paths, each paired with whether the
directory carries a package marker. -/
abbrev PackageTree := List (List String × Bool)

/-- Modelled from the spec: find_packages returns the paths of exactly those
walked directories that carry a package marker. -/
def find_packages (tree : PackageTree) : List (List String) :=
  (tree.filter (fun e => e.2)).map (fun e => e.1)

/-- The template placeholders substituted into setup.py by the external
templating step before it runs, one field per placeholder. -/
structure TemplateParams where
  python_package : String
  source_url : String
  python_version : String
  author : String
  author_email : String
  description : String
  deriving DecidableEq

/-- The package descriptor: the keyword arguments of the setup call on lines
5 to 15 of setup.py. -/
structure Descriptor where
  name : String
  url : String
  version : String
  author : String
  author_email : String
  description : String
  packages : List (List String)
  install_requires : List (List Char)
  include_package_data : Bool
  deriving DecidableEq

/-- The one failure mode of the script: the manifest file is missing or
unreadable, so the open call fails with an I/O error that is not handled. -/
inductive ManifestError where
  | ioFailure
  deriving DecidableEq

/-- Observable steps of a run of setup.py: the open attempt on the manifest,
the full read of its text, an explicit close of a file (never performed by
the script; the constructor exists so that its absence is expressible), and
the setup call consuming a descriptor. -/
inductive Event where
  | openFile (path : String)
  | readAll (path : String)
  | closeFile (path : String)
  | setupCall (d : Descriptor)
  deriving DecidableEq

/-- Is the event the consumption of a descriptor by the setup call. -/
def isSetupCallE : Event → Bool
  | Event.setupCall _ => true
  | _ => false

/-- The descriptor built by the setup call from the substituted template
placeholders, the manifest text and the project tree. -/
def mkDescriptor (p : TemplateParams) (content : List Char) (tree : PackageTree) :
    Descriptor :=
  { name := p.python_package,
    url := p.source_url,
    version := p.python_version,
    author := p.author,
    author_email := p.author_email,
    description := p.description,
    packages := find_packages tree,
    install_requires := requirements content,
    include_package_data := true }

/-- Embedding of a run of setup.py: open and fully read the manifest,
compute the requirements list, then call setup with the descriptor; when the
manifest is missing or unreadable the I/O failure propagates uncaught and
the setup call is never reached. The run yields its event trace and either
the descriptor handed to setup or the propagated failure. -/
def runProgram (p : TemplateParams) (fs : FS) (tree : PackageTree) :
    List Event × Except ManifestError Descriptor :=
  match fs requirementsPath with
  | none => ([Event.openFile requirementsPath], Except.error ManifestError.ioFailure)
  | some content =>
    ([Event.openFile requirementsPath, Event.readAll requirementsPath,
      Event.setupCall (mkDescriptor p content tree)],
     Except.ok (mkDescriptor p content tree))

/-- Fate of the file handle created for the manifest by the read expression. -/
inductive HandleFate where
  | notOpened
  | implicitlyReleased
  deriving DecidableEq

/-- Modelled from the spec: the source binds the handle returned by open to
no name, so at the end of the read expression no reference to it remains and
the runtime releases it implicitly; when the open itself fails no handle was
created. No explicit close appears anywhere in the source. -/
def readExprHandleFate (fs : FS) : HandleFate :=
  match fs requirementsPath with
  | none => HandleFate.notOpened
  | some _ => HandleFate.implicitlyReleased

/-- Concrete template parameters used by witnesses. -/
def exampleParams : TemplateParams :=
  { python_package := "pkg", source_url := "http://example", python_version := "1.0",
    author := "a", author_email := "a@example", description := "d" }

/-- A filesystem holding the given text at every path. -/
def fsWith (content : List Char) : FS := fun _ => some content

/-- A filesystem with no readable file anywhere. -/
def fsMissing : FS := fun _ => none

/-- A filesystem holding an empty manifest and nothing else. -/
def fsMissingElsewhere : FS := fun path =>
  if path = "requirements.txt" then some [] else none

/-- The manifest text of the worked example of the spec: three lines, the
second with surrounding spaces and the third blank. -/
def exampleManifest : List Char :=
  ("requests>=2.0\n flask==1.1 \n\n").data

theorem runProgram_none (p : TemplateParams) (fs : FS) (tree : PackageTree)
    (h : fs requirementsPath = none) :
    runProgram p fs tree =
      ([Event.openFile requirementsPath], Except.error ManifestError.ioFailure) := by
  unfold runProgram
  rw [h]

theorem runProgram_some (p : TemplateParams) (fs : FS) (tree : PackageTree)
    (content : List Char) (h : fs requirementsPath = some content) :
    runProgram p fs tree =
      ([Event.openFile requirementsPath, Event.readAll requirementsPath,
        Event.setupCall (mkDescriptor p content tree)],
       Except.ok (mkDescriptor p content tree)) := by
  unfold runProgram
  rw [h]

theorem pyWS_newline : pyWS '\n' = true := by decide

theorem head_dropWhile_not_pyWS (l : List Char) (c : Char)
    (h : (l.dropWhile pyWS).head? = some c) : pyWS c = false := by
  induction l with
  | nil => simp at h
  | cons a t ih =>
    rw [List.dropWhile_cons] at h
    by_cases ha : pyWS a = true
    · rw [if_pos ha] at h
      exact ih h
    · rw [if_neg ha] at h
      obtain rfl : a = c := by simpa using h
      simpa using ha

theorem dropTrailWS_getLast (l : List Char) (c : Char)
    (h : (dropTrailWS l).getLast? = some c) : pyWS c = false := by
  rw [dropTrailWS, List.getLast?_reverse] at h
  exact head_dropWhile_not_pyWS l.reverse c h

theorem dropTrailWS_decomp (l : List Char) :
    l = dropTrailWS l ++ (l.reverse.takeWhile pyWS).reverse := by
  have h : l.reverse.takeWhile pyWS ++ l.reverse.dropWhile pyWS = l.reverse :=
    List.takeWhile_append_dropWhile pyWS l.reverse
  have h2 := congrArg List.reverse h
  rw [List.reverse_append, List.reverse_reverse] at h2
  simp only [dropTrailWS]
  exact h2.symm

theorem pyStrip_decomp (l : List Char) :
    ∃ pre post, l = pre ++ (pyStrip l ++ post) ∧
      (∀ c ∈ pre, pyWS c = true) ∧ ∀ c ∈ post, pyWS c = true := by
  refine ⟨l.takeWhile pyWS, ((l.dropWhile pyWS).reverse.takeWhile pyWS).reverse,
    ?_, ?_, ?_⟩
  · have h1 : l = l.takeWhile pyWS ++ l.dropWhile pyWS :=
      (List.takeWhile_append_dropWhile pyWS l).symm
    have h2 := dropTrailWS_decomp (l.dropWhile pyWS)
    conv_lhs => rw [h1]
    congr 1
  · intro c hc
    exact List.mem_takeWhile_imp hc
  · intro c hc
    rw [List.mem_reverse] at hc
    exact List.mem_takeWhile_imp hc

theorem pyStrip_head (l : List Char) (c : Char) (h : (pyStrip l).head? = some c) :
    pyWS c = false := by
  have hd : l.dropWhile pyWS =
      pyStrip l ++ ((l.dropWhile pyWS).reverse.takeWhile pyWS).reverse := by
    simpa only [pyStrip] using dropTrailWS_decomp (l.dropWhile pyWS)
  apply head_dropWhile_not_pyWS l c
  rw [hd]
  cases hs : pyStrip l with
  | nil => rw [hs] at h; simp at h
  | cons a t =>
    rw [hs] at h
    obtain rfl : a = c := by simpa using h
    simp

theorem pyStrip_last (l : List Char) (c : Char) (h : (pyStrip l).getLast? = some c) :
    pyWS c = false :=
  dropTrailWS_getLast (l.dropWhile pyWS) c h

theorem dropWhile_eq_self_of_head (l : List Char)
    (h : ∀ c, l.head? = some c → pyWS c = false) : l.dropWhile pyWS = l := by
  cases l with
  | nil => rfl
  | cons a t =>
    have ha := h a rfl
    rw [List.dropWhile_cons, if_neg (by simp [ha])]

theorem dropTrailWS_eq_self_of_last (l : List Char)
    (h : ∀ c, l.getLast? = some c → pyWS c = false) : dropTrailWS l = l := by
  have h2 : l.reverse.dropWhile pyWS = l.reverse := by
    apply dropWhile_eq_self_of_head
    intro c hc
    rw [List.head?_reverse] at hc
    exact h c hc
  rw [dropTrailWS, h2, List.reverse_reverse]

theorem pyStrip_idem (l : List Char) : pyStrip (pyStrip l) = pyStrip l := by
  have h1 : (pyStrip l).dropWhile pyWS = pyStrip l :=
    dropWhile_eq_self_of_head _ (pyStrip_head l)
  show dropTrailWS ((pyStrip l).dropWhile pyWS) = pyStrip l
  rw [h1]
  exact dropTrailWS_eq_self_of_last _ (pyStrip_last l)

theorem dropTrailWS_append_ws (l : List Char) (c : Char) (hc : pyWS c = true) :
    dropTrailWS (l ++ [c]) = dropTrailWS l := by
  unfold dropTrailWS
  rw [List.reverse_append]
  simp [List.dropWhile_cons, hc]

theorem pyStrip_append_ws (l : List Char) (c : Char) (hc : pyWS c = true) :
    pyStrip (l ++ [c]) = pyStrip l := by
  unfold pyStrip
  rw [List.dropWhile_append]
  cases he : (l.dropWhile pyWS).isEmpty with
  | true =>
    rw [if_pos rfl]
    have hl : l.dropWhile pyWS = [] := by simpa using he
    rw [hl]
    simp [List.dropWhile_cons, hc, dropTrailWS]
  | false =>
    rw [if_neg (by simp)]
    exact dropTrailWS_append_ws (l.dropWhile pyWS) c hc

theorem pyStrip_stripEOL (raw : List Char) : pyStrip (stripEOL raw) = pyStrip raw := by
  unfold stripEOL
  by_cases h : raw.getLast? = some '\n'
  · rw [if_pos h]
    have hne : raw ≠ [] := by
      intro hr
      rw [hr] at h
      simp at h
    have hlast : raw.getLast hne = '\n' := by
      have h2 := List.getLast?_eq_getLast raw hne
      rw [h2] at h
      simpa using h
    conv_rhs => rw [← List.dropLast_append_getLast hne]
    rw [hlast]
    exact (pyStrip_append_ws raw.dropLast '\n' pyWS_newline).symm
  · rw [if_neg h]

/-- C1: for every dependency-manifest file, the computed dependency list is
exactly the file's lines in order, each with surrounding whitespace stripped,
its length is the number of lines, and blank lines are preserved as
empty-string entries. -/
theorem requirements_are_stripped_lines (content : List Char) :
    requirements content = (fileLines content).map pyStrip ∧
      (requirements content).length = (fileLines content).length ∧
      ∀ i : Nat, (fileLines content)[i]? = some [] →
        (requirements content)[i]? = some [] := by
  have hmap : requirements content = (fileLines content).map pyStrip := by
    unfold requirements fileLines
    rw [List.map_map]
    apply List.map_congr_left
    intro a _
    exact (pyStrip_stripEOL a).symm
  refine ⟨hmap, by rw [hmap, List.length_map], ?_⟩
  intro i hi
  rw [hmap, List.getElem?_map, hi]
  rfl

/-- Witness for C1 at the worked example of the spec: the manifest whose
lines are "requests>=2.0", " flask==1.1 " and "" yields exactly
["requests>=2.0", "flask==1.1", ""]. -/
theorem requirements_are_stripped_lines_witness :
    fileLines exampleManifest =
        ["requests>=2.0".data, " flask==1.1 ".data, []] ∧
      requirements exampleManifest =
        ["requests>=2.0".data, "flask==1.1".data, []] ∧
      (fileLines exampleManifest)[2]? = some [] ∧
      (requirements exampleManifest)[2]? = some [] := by
  refine ⟨by decide, by decide, by decide, ?_⟩
  exact (requirements_are_stripped_lines exampleManifest).2.2 2 (by decide)

/-- C9: every element of the computed dependency list has no leading or
trailing whitespace, and is the interior of its manifest line unchanged: the
raw line is the element surrounded by whitespace only. -/
theorem requirements_no_edge_whitespace (content : List Char) (l : List Char)
    (hl : l ∈ requirements content) :
    (∀ c, l.head? = some c → pyWS c = false) ∧
      (∀ c, l.getLast? = some c → pyWS c = false) ∧
      ∃ raw pre post, raw ∈ readlines content ∧ raw = pre ++ (l ++ post) ∧
        (∀ c ∈ pre, pyWS c = true) ∧ ∀ c ∈ post, pyWS c = true := by
  obtain ⟨raw, hraw, rfl⟩ := List.mem_map.mp hl
  obtain ⟨pre, post, heq, hpre, hpost⟩ := pyStrip_decomp raw
  exact ⟨pyStrip_head raw, pyStrip_last raw, raw, pre, post, hraw, heq, hpre, hpost⟩

/-- Witness for C9 at the second entry of the worked example manifest. -/
theorem requirements_no_edge_whitespace_witness :
    ("flask==1.1".data ∈ requirements exampleManifest) ∧
      ∀ c, ("flask==1.1".data : List Char).head? = some c → pyWS c = false := by
  have hm : "flask==1.1".data ∈ requirements exampleManifest := by decide
  exact ⟨hm, (requirements_no_edge_whitespace exampleManifest _ hm).1⟩

/-- C10: stripping each element of an already-computed dependency list
returns that list unchanged. -/
theorem requirements_strip_idempotent (content : List Char) :
    (requirements content).map pyStrip = requirements content := by
  unfold requirements
  rw [List.map_map]
  apply List.map_congr_left
  intro a _
  exact pyStrip_idem a

/-- C8: for an empty manifest file the computed dependency list is empty, and
descriptor construction still succeeds and proceeds to the setup call. -/
theorem empty_manifest_gives_empty_requirements (p : TemplateParams) (fs : FS)
    (tree : PackageTree) (h : fs requirementsPath = some []) :
    requirements [] = [] ∧
      ∃ d : Descriptor, (runProgram p fs tree).2 = Except.ok d ∧
        d.install_requires = [] ∧ Event.setupCall d ∈ (runProgram p fs tree).1 := by
  refine ⟨rfl, mkDescriptor p [] tree, ?_, rfl, ?_⟩
  · rw [runProgram_some p fs tree [] h]
  · rw [runProgram_some p fs tree [] h]
    simp

/-- Witness for C8 on a filesystem holding an empty manifest. -/
theorem empty_manifest_gives_empty_requirements_witness :
    (fsWith [] requirementsPath = some []) ∧
      (requirements [] = [] ∧
        ∃ d : Descriptor, (runProgram exampleParams (fsWith []) []).2 = Except.ok d ∧
          d.install_requires = [] ∧
          Event.setupCall d ∈ (runProgram exampleParams (fsWith []) []).1) :=
  ⟨rfl, empty_manifest_gives_empty_requirements exampleParams (fsWith []) [] rfl⟩

/-- C2: when the manifest is missing or unreadable, the I/O failure
propagates uncaught, the trace stops at the failed open, and no setup call is
ever made. -/
theorem missing_manifest_aborts_before_setup (p : TemplateParams) (fs : FS)
    (tree : PackageTree) (h : fs requirementsPath = none) :
    (runProgram p fs tree).2 = Except.error ManifestError.ioFailure ∧
      (runProgram p fs tree).1 = [Event.openFile requirementsPath] ∧
      ∀ d : Descriptor, Event.setupCall d ∉ (runProgram p fs tree).1 := by
  rw [runProgram_none p fs tree h]
  refine ⟨rfl, rfl, ?_⟩
  intro d hd
  simp at hd

/-- Witness for C2 on the filesystem with no files. -/
theorem missing_manifest_aborts_before_setup_witness :
    (fsMissing requirementsPath = none) ∧
      ((runProgram exampleParams fsMissing []).2 =
          Except.error ManifestError.ioFailure ∧
        (runProgram exampleParams fsMissing []).1 = [Event.openFile requirementsPath] ∧
        ∀ d : Descriptor,
          Event.setupCall d ∉ (runProgram exampleParams fsMissing []).1) :=
  ⟨rfl, missing_manifest_aborts_before_setup exampleParams fsMissing [] rfl⟩

/-- C3: the descriptor is the record built at construction time, field for
field, and is consumed exactly once, by the single setup call that follows
its construction: the trace has exactly one setup event and it carries the
constructed descriptor unchanged. -/
theorem descriptor_immutable_consumed_once (p : TemplateParams) (fs : FS)
    (tree : PackageTree) (evs : List Event) (d : Descriptor)
    (h : runProgram p fs tree = (evs, Except.ok d)) :
    evs.countP isSetupCallE = 1 ∧
      Event.setupCall d ∈ evs ∧
      (∀ d' : Descriptor, Event.setupCall d' ∈ evs → d' = d) ∧
      ∃ content, fs requirementsPath = some content ∧ d = mkDescriptor p content tree := by
  cases hfs : fs requirementsPath with
  | none =>
    rw [runProgram_none p fs tree hfs] at h
    exact absurd (congrArg Prod.snd h) (by simp)
  | some content =>
    rw [runProgram_some p fs tree content hfs] at h
    have hev : evs = [Event.openFile requirementsPath, Event.readAll requirementsPath,
        Event.setupCall (mkDescriptor p content tree)] := (congrArg Prod.fst h).symm
    have hd : d = mkDescriptor p content tree := by
      have h2 := congrArg Prod.snd h
      simp at h2
      exact h2.symm
    subst hev
    subst hd
    refine ⟨rfl, by simp, ?_, content, rfl, rfl⟩
    intro d' hd'
    simp at hd'
    exact hd'

/-- Witness for C3 on a concrete run. -/
theorem descriptor_immutable_consumed_once_witness :
    Event.setupCall (mkDescriptor exampleParams [] []) ∈
      (runProgram exampleParams (fsWith []) []).1 := by
  have h := descriptor_immutable_consumed_once exampleParams (fsWith []) []
    [Event.openFile requirementsPath, Event.readAll requirementsPath,
      Event.setupCall (mkDescriptor exampleParams [] [])]
    (mkDescriptor exampleParams [] []) rfl
  exact h.2.1

/-- C5: the include-non-code-assets flag of the descriptor handed to setup is
the constant true on every run, whatever the template parameters, the
manifest contents and the tree. -/
theorem include_package_data_always_true (p : TemplateParams) (fs : FS)
    (tree : PackageTree) (evs : List Event) (d : Descriptor)
    (h : runProgram p fs tree = (evs, Except.ok d)) :
    d.include_package_data = true := by
  cases hfs : fs requirementsPath with
  | none =>
    rw [runProgram_none p fs tree hfs] at h
    exact absurd (congrArg Prod.snd h) (by simp)
  | some content =>
    rw [runProgram_some p fs tree content hfs] at h
    have h2 := congrArg Prod.snd h
    simp at h2
    rw [← h2]
    rfl

/-- Witness for C5 on a concrete run. -/
theorem include_package_data_always_true_witness :
    (mkDescriptor exampleParams [] []).include_package_data = true :=
  include_package_data_always_true exampleParams (fsWith []) [] _ _ rfl

/-- C4: package discovery returns exactly the sub-package paths whose
directories carry package markers; every directory without a marker is
excluded. -/
theorem find_packages_exactly_marked (tree : PackageTree) (p : List String) :
    p ∈ find_packages tree ↔ (p, true) ∈ tree := by
  unfold find_packages
  constructor
  · intro h
    obtain ⟨e, he, hfst⟩ := List.mem_map.mp h
    have hsnd : e.2 = true := (List.mem_filter.mp he).2
    have hep : e = (p, true) := by
      cases e
      simp only at hfst hsnd
      rw [hfst, hsnd]
    exact hep ▸ (List.mem_filter.mp he).1
  · intro h
    exact List.mem_map.mpr ⟨(p, true), List.mem_filter.mpr ⟨h, rfl⟩, rfl⟩

/-- C6: every run opens the manifest; when it is readable the run fully
reads it and the handle is released implicitly at the end of the read
expression; no explicit close step occurs on any exit path, including the
missing-file failure path, where no handle was created at all. -/
theorem manifest_read_no_explicit_close (p : TemplateParams) (fs : FS)
    (tree : PackageTree) :
    Event.openFile requirementsPath ∈ (runProgram p fs tree).1 ∧
      (∀ path : String, Event.closeFile path ∉ (runProgram p fs tree).1) ∧
      (∀ content : List Char, fs requirementsPath = some content →
        Event.readAll requirementsPath ∈ (runProgram p fs tree).1 ∧
          readExprHandleFate fs = HandleFate.implicitlyReleased) ∧
      (fs requirementsPath = none → readExprHandleFate fs = HandleFate.notOpened) := by
  cases hfs : fs requirementsPath with
  | none =>
    rw [runProgram_none p fs tree hfs]
    refine ⟨by simp, ?_, ?_, ?_⟩
    · intro path hmem
      simp at hmem
    · intro content hc
      exact Option.noConfusion hc
    · intro _
      unfold readExprHandleFate
      rw [hfs]
  | some content =>
    rw [runProgram_some p fs tree content hfs]
    refine ⟨by simp, ?_, ?_, ?_⟩
    · intro path hmem
      simp at hmem
    · intro c hc
      refine ⟨by simp, ?_⟩
      unfold readExprHandleFate
      rw [hfs]
    · intro h0
      exact Option.noConfusion h0

/-- Witness for C6 on a concrete readable and a concrete missing manifest. -/
theorem manifest_read_no_explicit_close_witness :
    (Event.readAll requirementsPath ∈ (runProgram exampleParams (fsWith []) []).1 ∧
      readExprHandleFate (fsWith []) = HandleFate.implicitlyReleased) ∧
      Event.closeFile requirementsPath ∉ (runProgram exampleParams (fsWith []) []).1 ∧
      readExprHandleFate fsMissing = HandleFate.notOpened := by
  have h := manifest_read_no_explicit_close exampleParams (fsWith []) []
  have h2 := manifest_read_no_explicit_close exampleParams fsMissing []
  exact ⟨h.2.2.1 [] rfl, h.2.1 requirementsPath, h2.2.2.2 rfl⟩

/-- C7: the run is deterministic: it depends only on the manifest text and
the project tree, with no branching on any other state, so two runs over
filesystems agreeing on the manifest and equal trees are identical. -/
theorem runProgram_deterministic (p : TemplateParams) (fs₁ fs₂ : FS)
    (t₁ t₂ : PackageTree) (hfs : fs₁ requirementsPath = fs₂ requirementsPath)
    (ht : t₁ = t₂) :
    runProgram p fs₁ t₁ = runProgram p fs₂ t₂ := by
  subst ht
  unfold runProgram
  rw [hfs]

/-- Witness for C7 on two different filesystems with the same manifest. -/
theorem runProgram_deterministic_witness :
    (fsWith [] requirementsPath = fsMissingElsewhere requirementsPath) ∧
      runProgram exampleParams (fsWith []) [] =
        runProgram exampleParams fsMissingElsewhere [] := by
  have h : fsWith [] requirementsPath = fsMissingElsewhere requirementsPath := by decide
  exact ⟨h, runProgram_deterministic exampleParams (fsWith []) fsMissingElsewhere [] [] h rfl⟩
